import Mathlib

/-!
Verification development for the gamatix proxy server (TypeScript/Express).

The definitions below are a shallow embedding of `src/index.ts`:
strings are modelled as `List Char`, the WHATWG `URL` constructor used by
the code is modelled by `parseURL` / `resolveURL` / `serializeURL`
(restricted to the special schemes `http`/`https`/`ws`/`wss`/`ftp` with
`scheme://host` syntax, and without percent-encoding of code points inside
components; the inputs exercised by the theorems stay inside this
fragment), `encodeURIComponent` is modelled byte-faithfully over UTF-8,
and the Express handler `handleProxyRequest` is modelled as a pure
function from an inbound request and a dispatch oracle (the `axios` call)
to an observable outcome.
-/

set_option maxRecDepth 20000

namespace GamatixProxy

/-- Double-quote character (written via its code point to keep source plain). -/
def quoteC : Char := Char.ofNat 34

/-- Single-quote character. -/
def apostC : Char := Char.ofNat 39

/-- Backslash character. -/
def backslashC : Char := Char.ofNat 92

/-- Opening curly bracket character. -/
def lbraceC : Char := Char.ofNat 123

/-- Closing curly bracket character. -/
def rbraceC : Char := Char.ofNat 125

/-- Model of JavaScript `String.prototype.startsWith`: `startsWithL pat s`
is `true` when `pat` is a prefix of `s`. -/
def startsWithL : List Char → List Char → Bool
  | [], _ => true
  | _ :: _, [] => false
  | p :: ps, c :: cs => p == c && startsWithL ps cs

/-- Model of JavaScript `String.prototype.includes`: substring test. -/
def containsL (pat : List Char) : List Char → Bool
  | [] => pat.isEmpty
  | c :: t => startsWithL pat (c :: t) || containsL pat t

/-- Lowercase every character (used for scheme/host canonicalization). -/
def lowerL (s : List Char) : List Char := s.map Char.toLower

/-- The characters permitted inside a URL scheme. -/
def isSchemeChar (c : Char) : Bool := c.isAlphanum || c == '+' || c == '-' || c == '.'

/-- Parsed URL record: either an authority-based URL
(`scheme://host[:port]/path[?query][#fragment]`) or a non-special URL kept
as `scheme:` plus its raw remainder (e.g. `mailto:`). -/
inductive URLRec where
  | auth (scheme host : List Char) (port : Option Nat)
      (pathSegs : List (List Char)) (query fragment : Option (List Char))
  | plain (scheme : List Char) (rest : List Char)
deriving DecidableEq

/-- Split a candidate URL string into scheme and remainder after `:`;
fails when there is no scheme (first character must be alphabetic). -/
def splitScheme (s : List Char) : Option (List Char × List Char) :=
  match s.takeWhile isSchemeChar, s.dropWhile isSchemeChar with
  | c :: cs, ':' :: r => if c.isAlpha then some (c :: cs, r) else none
  | _, _ => none

/-- Schemes treated as special (authority-based) by the model. -/
def isSpecialScheme (s : List Char) : Bool :=
  s == "http".data || s == "https".data || s == "ws".data ||
  s == "wss".data || s == "ftp".data

/-- Default port for a special scheme, elided from parsed records. -/
def defaultPort (s : List Char) : Option Nat :=
  if s == "http".data || s == "ws".data then some 80
  else if s == "https".data || s == "wss".data then some 443
  else if s == "ftp".data then some 21
  else none

/-- Path segment `.`. -/
def dotSeg : List Char := ['.']

/-- Path segment `..`. -/
def dotDotSeg : List Char := ['.', '.']

/-- Dot-segment removal over path segments, as performed by the WHATWG URL
path state (`.` is dropped, `..` pops the previous segment; a trailing `.`
or `..` leaves a trailing empty segment). -/
def normSegsAux : List (List Char) → List (List Char) → List (List Char)
  | acc, [] => acc.reverse
  | acc, seg :: rest =>
    if seg = dotSeg then
      match rest with
      | [] => (([] : List Char) :: acc).reverse
      | _ :: _ => normSegsAux acc rest
    else if seg = dotDotSeg then
      let acc' := match acc with | [] => ([] : List (List Char)) | _ :: t => t
      match rest with
      | [] => (([] : List Char) :: acc').reverse
      | _ :: _ => normSegsAux acc' rest
    else normSegsAux (seg :: acc) rest

/-- Characters ending the authority component. -/
def notPathDelim (c : Char) : Bool := !(c == '/' || c == '?' || c == '#')

/-- Characters ending the path component. -/
def notQF (c : Char) : Bool := !(c == '?' || c == '#')

/-- Split a `?query#fragment` suffix into query and fragment. -/
def splitQF : List Char → Option (List Char) × Option (List Char)
  | '?' :: r =>
    (some (r.takeWhile (fun c => !(c == '#'))),
      match r.dropWhile (fun c => !(c == '#')) with
      | _ :: f => some f
      | [] => none)
  | '#' :: r => (none, some r)
  | _ => (none, none)

/-- Parse an absolute path plus query/fragment suffix into normalized
segments. -/
def parseAbsPathQF (rest : List Char) :
    List (List Char) × Option (List Char) × Option (List Char) :=
  let pathPart := rest.takeWhile notQF
  let (q, f) := splitQF (rest.dropWhile notQF)
  match pathPart with
  | '/' :: p => (normSegsAux [] (List.splitOn '/' p), q, f)
  | _ => ([], q, f)

/-- Digits to a natural number. -/
def charsToNat (s : List Char) : Nat :=
  s.foldl (fun n c => n * 10 + (c.toNat - 48)) 0

/-- Parse the part of a special URL following `scheme://`: authority
(userinfo dropped, host lowercased, port validated) then path, query and
fragment. -/
def parseAuthRest (sch : List Char) (r : List Char) : Option URLRec :=
  let authPart := r.takeWhile notPathDelim
  let rest := r.dropWhile notPathDelim
  let hostport := (authPart.reverse.takeWhile (fun c => !(c == '@'))).reverse
  let host := lowerL (hostport.takeWhile (fun c => !(c == ':')))
  let portPart := hostport.dropWhile (fun c => !(c == ':'))
  if host = [] then none
  else
    let mk : Option Nat → Option URLRec := fun port =>
      let (segs, q, f) := parseAbsPathQF rest
      some (.auth sch host port segs q f)
    match portPart with
    | [] => mk none
    | _ :: ps =>
      if ps = [] then mk none
      else if ps.all Char.isDigit then
        let p := charsToNat ps
        if p > 65535 then none
        else mk (if defaultPort sch = some p then none else some p)
      else none

/-- Model of the WHATWG `new URL(s)` constructor (absolute form, no base):
special schemes must be followed by `//` and an authority; other schemes
are kept verbatim after the colon. -/
def parseURL (s : List Char) : Option URLRec :=
  match splitScheme s with
  | none => none
  | some (schRaw, rest) =>
    let sch := lowerL schRaw
    if isSpecialScheme sch then
      match rest with
      | '/' :: '/' :: r => parseAuthRest sch r
      | _ => none
    else some (.plain sch rest)

/-- Digit characters of a natural number (helper with fuel). -/
def natDigitsAux : Nat → Nat → List Char
  | 0, _ => []
  | fuel + 1, n =>
    if n < 10 then [Char.ofNat (48 + n)]
    else natDigitsAux fuel (n / 10) ++ [Char.ofNat (48 + n % 10)]

/-- Decimal digit characters of a natural number. -/
def natDigits (n : Nat) : List Char := natDigitsAux (n + 1) n

/-- Model of `URL.prototype.toString` / `href` serialization. -/
def serializeURL : URLRec → List Char
  | .plain sch rest => sch ++ ':' :: rest
  | .auth sch host port segs q f =>
    sch ++ ':' :: '/' :: '/' :: host
      ++ (match port with | some p => ':' :: natDigits p | none => [])
      ++ '/' :: List.intercalate ['/'] segs
      ++ (match q with | some qs => '?' :: qs | none => [])
      ++ (match f with | some fs => '#' :: fs | none => [])

/-- Merge a relative path reference into a base URL (shorten the base path
by one segment, append the reference segments, remove dot segments). -/
def mergeRelPath (sch host : List Char) (port : Option Nat)
    (baseSegs : List (List Char)) (rel : List Char) : URLRec :=
  let pathPart := rel.takeWhile notQF
  let (q, f) := splitQF (rel.dropWhile notQF)
  let segs := normSegsAux [] (baseSegs.dropLast ++ List.splitOn '/' pathPart)
  .auth sch host port segs q f

/-- Model of the WHATWG `new URL(rel, base)` resolution against an already
parsed base record: absolute references stand alone; `//`, `/`, `?`, `#`
and path-relative references are resolved against the base; resolution
against a non-authority base fails (its origin is opaque). -/
def resolveURL (rel : List Char) (base : URLRec) : Option URLRec :=
  match parseURL rel with
  | some u => some u
  | none =>
    match base with
    | .plain _ _ => none
    | .auth sch host port segs query _ =>
      match rel with
      | '/' :: '/' :: r => parseAuthRest sch r
      | [] => some (.auth sch host port segs query none)
      | '/' :: _ =>
        let (segs', q, f) := parseAbsPathQF rel
        some (.auth sch host port segs' q f)
      | '?' :: _ =>
        let (q, f) := splitQF rel
        some (.auth sch host port segs q f)
      | '#' :: r => some (.auth sch host port segs query (some r))
      | _ => some (mergeRelPath sch host port segs rel)

/-- The prefix `//` tested by `normalizeUrl`. -/
def slashSlashL : List Char := ['/', '/']

/-- The prefix `http` tested by `normalizeUrl` and the rewriters. -/
def httpL : List Char := ['h', 't', 't', 'p']

/-- The literal `https:` prepended to protocol-relative URLs. -/
def httpsColonL : List Char := ['h', 't', 't', 'p', 's', ':']

/-- The `new URL(urlString)` validation step of `normalizeUrl`: return the
input string unchanged when it parses, signal `Invalid URL format`
otherwise. -/
def validateURLString (urlString : List Char) : Except Unit (List Char) :=
  match parseURL urlString with
  | some _ => .ok urlString
  | none => .error ()

/-- Model of `normalizeUrl` (src/index.ts lines 47-67): `//`-prefixed
inputs get `https:` prepended with no validation; with a base, non-`http`
prefixed inputs are resolved against the base's origin; otherwise the
input is validated and returned unchanged.  `Except.error ()` models the
thrown `Invalid URL format` error. -/
def normalizeUrl (urlString : List Char) (baseUrl : Option (List Char)) :
    Except Unit (List Char) :=
  if startsWithL slashSlashL urlString then .ok (httpsColonL ++ urlString)
  else
    match baseUrl with
    | some b =>
      if startsWithL httpL urlString then validateURLString urlString
      else
        match parseURL b with
        | some (.auth sch host port _ _ _) =>
          match resolveURL urlString (.auth sch host port [] none none) with
          | some u => .ok (serializeURL u)
          | none => .error ()
        | _ => .error ()
    | none => validateURLString urlString

/-- Unreserved characters of `encodeURIComponent` (left unescaped). -/
def isUnreservedURIC (c : Char) : Bool :=
  c.isAlphanum || c == '-' || c == '_' || c == '.' || c == '!' ||
  c == '~' || c == '*' || c == apostC || c == '(' || c == ')'

/-- UTF-8 bytes of a character. -/
def utf8Bytes (c : Char) : List Nat :=
  let n := c.toNat
  if n < 128 then [n]
  else if n < 2048 then [192 + n / 64, 128 + n % 64]
  else if n < 65536 then [224 + n / 4096, 128 + (n / 64) % 64, 128 + n % 64]
  else [240 + n / 262144, 128 + (n / 4096) % 64, 128 + (n / 64) % 64, 128 + n % 64]

/-- Uppercase hexadecimal digit. -/
def hexDigitU (n : Nat) : Char :=
  if n < 10 then Char.ofNat (48 + n) else Char.ofNat (55 + n)

/-- Percent-escape of one byte, uppercase as produced by `encodeURIComponent`. -/
def pctByte (b : Nat) : List Char := ['%', hexDigitU (b / 16), hexDigitU (b % 16)]

/-- Model of JavaScript `encodeURIComponent`. -/
def encodeURIComponent (s : List Char) : List Char :=
  s.flatMap (fun c =>
    if isUnreservedURIC c then [c] else (utf8Bytes c).flatMap pctByte)

/-- The wrapper prefix `/proxy?url=` used for rewritten links. -/
def proxyWrapStr : List Char := "/proxy?url=".data

/-! ### HTML link rewriting (regex `/(href|src|action)=["'](.*?)["']/gi`) -/

/-- Quote characters matched by the regex character class. -/
def isQuoteC (c : Char) : Bool := c == quoteC || c == apostC

/-- Line terminators that the regex `.` does not match. -/
def isJsNewline (c : Char) : Bool :=
  c == Char.ofNat 10 || c == Char.ofNat 13 || c.toNat = 8232 || c.toNat = 8233

/-- Case-insensitive literal match, returning the consumed original
characters and the remainder. -/
def matchCI : List Char → List Char → Option (List Char × List Char)
  | [], s => some ([], s)
  | _ :: _, [] => none
  | p :: ps, c :: cs =>
    if p.toLower == c.toLower then
      (matchCI ps cs).map (fun q => (c :: q.1, q.2))
    else none

/-- Try the regex alternation `href|src|action` (case-insensitive) at the
head of the input. -/
def matchAttrName (s : List Char) : Option (List Char × List Char) :=
  match matchCI "href".data s with
  | some r => some r
  | none =>
    match matchCI "src".data s with
    | some r => some r
    | none => matchCI "action".data s

/-- Lazy scan `(.*?)["']`: shortest run of non-newline characters up to
the first quote (either kind); fails on a newline or end of input. -/
def scanValue : List Char → Option (List Char × Char × List Char)
  | [] => none
  | c :: r =>
    if isQuoteC c then some ([], c, r)
    else if isJsNewline c then none
    else (scanValue r).map (fun t => (c :: t.1, t.2.1, t.2.2))

/-- Try the whole pattern `(href|src|action)=["'](.*?)["']` at the head of
the input, returning attribute text, opening quote, value, closing quote
and remainder. -/
def tryMatchAt (s : List Char) :
    Option (List Char × Char × List Char × Char × List Char) :=
  match matchAttrName s with
  | none => none
  | some (attr, r1) =>
    match r1 with
    | '=' :: q1 :: r2 =>
      if isQuoteC q1 then
        (scanValue r2).map (fun t => (attr, q1, t.1, t.2.1, t.2.2))
      else none
    | _ => none

/-- Replacement text `attr="/proxy?url=<encoded>"` (always double-quoted,
as in the source template literal). -/
def wrapAttr (attr : List Char) (u : List Char) : List Char :=
  attr ++ '=' :: quoteC :: (proxyWrapStr ++ encodeURIComponent u) ++ [quoteC]

/-- The regex replacer callback of the HTML rewriter (src/index.ts lines
157-170): absolute or protocol-relative links go through
`normalizeUrl(link, normalizedUrl)`; other links are resolved against the
origin of the target; any failure returns the original match unmodified. -/
def rewriteLink (attr : List Char) (q1 : Char) (link : List Char)
    (q2 : Char) (normalizedUrl : List Char) : List Char :=
  if startsWithL httpL link || startsWithL slashSlashL link then
    match normalizeUrl link (some normalizedUrl) with
    | .ok u => wrapAttr attr u
    | .error _ => attr ++ '=' :: q1 :: link ++ [q2]
  else
    match parseURL normalizedUrl with
    | some (.auth sch host port _ _ _) =>
      match resolveURL link (.auth sch host port [] none none) with
      | some u => wrapAttr attr (serializeURL u)
      | none => attr ++ '=' :: q1 :: link ++ [q2]
    | _ => attr ++ '=' :: q1 :: link ++ [q2]

/-- Global regex scan: find non-overlapping matches left to right and
replace each through `rewriteLink`; fuelled by the input length. -/
def scanRewrite : Nat → List Char → List Char → List Char
  | 0, s, _ => s
  | fuel + 1, s, nu =>
    match s with
    | [] => []
    | c :: t =>
      match tryMatchAt s with
      | some (attr, q1, v, q2, rest) =>
        rewriteLink attr q1 v q2 nu ++ scanRewrite fuel rest nu
      | none => c :: scanRewrite fuel t nu

/-- Model of the HTML body rewriting step (`body.replace(regex, cb)`). -/
def rewriteHtml (body : List Char) (normalizedUrl : List Char) : List Char :=
  scanRewrite body.length body normalizedUrl

/-! ### JSON (model of `JSON.parse` / `res.json` serialization) -/

mutual
/-- JSON values; numbers keep their raw source text (decimal
re-canonicalization performed by JavaScript numbers is not modelled — the
theorems only depend on parse success or failure).  Array elements and
object members are separate mutual types so that all recursions stay
structural (and hence kernel-reducible). -/
inductive JVal where
  | jnull
  | jbool (b : Bool)
  | jnum (s : List Char)
  | jstr (s : List Char)
  | jarr (elems : JArr)
  | jobj (members : JObj)

/-- List of JSON array elements. -/
inductive JArr where
  | nil
  | cons (v : JVal) (tail : JArr)

/-- List of JSON object members. -/
inductive JObj where
  | nil
  | cons (k : List Char) (v : JVal) (tail : JObj)
end

/-- JSON insignificant whitespace. -/
def isJsonWs (c : Char) : Bool :=
  c == ' ' || c == Char.ofNat 9 || c == Char.ofNat 10 || c == Char.ofNat 13

/-- Skip JSON whitespace. -/
def skipWs (s : List Char) : List Char := s.dropWhile isJsonWs

/-- Hexadecimal digit value. -/
def hexVal (c : Char) : Option Nat :=
  if c.isDigit then some (c.toNat - 48)
  else if 97 ≤ c.toNat && c.toNat ≤ 102 then some (c.toNat - 87)
  else if 65 ≤ c.toNat && c.toNat ≤ 70 then some (c.toNat - 55)
  else none

/-- Parse the remainder of a JSON string literal (after the opening
quote), decoding escapes; surrogate pairing of `\u` escapes is not
modelled. -/
def parseJStrAux : List Char → Option (List Char × List Char)
  | [] => none
  | c :: r =>
    if c == quoteC then some ([], r)
    else if c == backslashC then
      match r with
      | [] => none
      | e :: r2 =>
        if e == quoteC then (parseJStrAux r2).map (fun p => (quoteC :: p.1, p.2))
        else if e == backslashC then (parseJStrAux r2).map (fun p => (backslashC :: p.1, p.2))
        else if e == '/' then (parseJStrAux r2).map (fun p => ('/' :: p.1, p.2))
        else if e == 'b' then (parseJStrAux r2).map (fun p => (Char.ofNat 8 :: p.1, p.2))
        else if e == 'f' then (parseJStrAux r2).map (fun p => (Char.ofNat 12 :: p.1, p.2))
        else if e == 'n' then (parseJStrAux r2).map (fun p => (Char.ofNat 10 :: p.1, p.2))
        else if e == 'r' then (parseJStrAux r2).map (fun p => (Char.ofNat 13 :: p.1, p.2))
        else if e == 't' then (parseJStrAux r2).map (fun p => (Char.ofNat 9 :: p.1, p.2))
        else if e == 'u' then
          match r2 with
          | h1 :: h2 :: h3 :: h4 :: r3 =>
            match hexVal h1, hexVal h2, hexVal h3, hexVal h4 with
            | some a, some b, some c2, some d =>
              (parseJStrAux r3).map
                (fun p => (Char.ofNat (a * 4096 + b * 256 + c2 * 16 + d) :: p.1, p.2))
            | _, _, _, _ => none
          | _ => none
        else none
    else if c.toNat < 32 then none
    else (parseJStrAux r).map (fun p => (c :: p.1, p.2))

/-- Split leading decimal digits. -/
def parseDigits (s : List Char) : List Char × List Char :=
  (s.takeWhile Char.isDigit, s.dropWhile Char.isDigit)

/-- Parse a JSON number token (sign, integer part without leading zeros,
optional fraction and exponent); returns the raw token text. -/
def parseJNum (s : List Char) : Option (List Char × List Char) :=
  let (sign, s1) := match s with | '-' :: r => (['-'], r) | _ => (([] : List Char), s)
  let (intPart, s2) := parseDigits s1
  if intPart = [] then none
  else if intPart.length > 1 && intPart.head? == some '0' then none
  else
    let (fracPart, s3) :=
      match s2 with
      | '.' :: r =>
        let (d, r2) := parseDigits r
        if d = [] then (([] : List Char), s2) else ('.' :: d, r2)
      | _ => (([] : List Char), s2)
    let (expPart, s4) :=
      match s3 with
      | e :: r =>
        if e == 'e' || e == 'E' then
          let (sg, r1) :=
            match r with
            | '+' :: rr => (['+'], rr)
            | '-' :: rr => (['-'], rr)
            | _ => (([] : List Char), r)
          let (d, r2) := parseDigits r1
          if d = [] then (([] : List Char), s3) else (e :: sg ++ d, r2)
        else (([] : List Char), s3)
      | [] => (([] : List Char), s3)
    some (sign ++ intPart ++ fracPart ++ expPart, s4)

/-- Mode of the fuelled JSON parser: a single value, the elements of an
array after `[`, or the members of an object after the opening brace. -/
inductive JMode where
  | val
  | arrElems
  | objMembers

/-- Result of the fuelled JSON parser, by mode. -/
inductive JRes where
  | rv (v : JVal) (rest : List Char)
  | ra (vs : JArr) (rest : List Char)
  | ro (ms : JObj) (rest : List Char)

/-- Fuelled recursive-descent JSON parser (single function so that the
recursion is structural on the fuel and kernel-reducible). -/
def parseJ : Nat → JMode → List Char → Option JRes
  | 0, _, _ => none
  | fuel + 1, .val, s0 =>
    let s := skipWs s0
    match s with
    | [] => none
    | c :: r =>
      if c == quoteC then (parseJStrAux r).map (fun p => .rv (.jstr p.1) p.2)
      else if c == '[' then
        match skipWs r with
        | ']' :: r2 => some (.rv (.jarr .nil) r2)
        | _ =>
          match parseJ fuel .arrElems r with
          | some (.ra vs rest) => some (.rv (.jarr vs) rest)
          | _ => none
      else if c == lbraceC then
        match skipWs r with
        | c2 :: r2 =>
          if c2 == rbraceC then some (.rv (.jobj .nil) r2)
          else
            match parseJ fuel .objMembers r with
            | some (.ro ms rest) => some (.rv (.jobj ms) rest)
            | _ => none
        | [] => none
      else if c == 'n' then
        match r with
        | 'u' :: 'l' :: 'l' :: r2 => some (.rv .jnull r2)
        | _ => none
      else if c == 't' then
        match r with
        | 'r' :: 'u' :: 'e' :: r2 => some (.rv (.jbool true) r2)
        | _ => none
      else if c == 'f' then
        match r with
        | 'a' :: 'l' :: 's' :: 'e' :: r2 => some (.rv (.jbool false) r2)
        | _ => none
      else if c == '-' || c.isDigit then (parseJNum s).map (fun p => .rv (.jnum p.1) p.2)
      else none
  | fuel + 1, .arrElems, s =>
    match parseJ fuel .val s with
    | some (.rv v r) =>
      (match skipWs r with
      | ',' :: r2 =>
        match parseJ fuel .arrElems r2 with
        | some (.ra vs rest) => some (.ra (.cons v vs) rest)
        | _ => none
      | ']' :: r2 => some (.ra (.cons v .nil) r2)
      | _ => none)
    | _ => none
  | fuel + 1, .objMembers, s =>
    match skipWs s with
    | c :: r =>
      if c == quoteC then
        match parseJStrAux r with
        | none => none
        | some (k, r2) =>
          match skipWs r2 with
          | ':' :: r3 =>
            match parseJ fuel .val r3 with
            | some (.rv v r4) =>
              (match skipWs r4 with
              | ',' :: r5 =>
                match parseJ fuel .objMembers r5 with
                | some (.ro ms rest) => some (.ro (.cons k v ms) rest)
                | _ => none
              | c5 :: r5 =>
                if c5 == rbraceC then some (.ro (.cons k v .nil) r5) else none
              | [] => none)
            | _ => none
          | _ => none
      else none
    | [] => none

/-- Model of `JSON.parse`: parse one value and require only whitespace to
remain. -/
def jsonParse (s : List Char) : Option JVal :=
  match parseJ (2 * s.length + 2) .val s with
  | some (.rv v r) => if skipWs r = [] then some v else none
  | _ => none

/-- Lowercase hexadecimal digit. -/
def hexDigitL (n : Nat) : Char :=
  if n < 10 then Char.ofNat (48 + n) else Char.ofNat (87 + n)

/-- Escape one character as `JSON.stringify` does inside string literals. -/
def escJChar (c : Char) : List Char :=
  if c == quoteC then [backslashC, quoteC]
  else if c == backslashC then [backslashC, backslashC]
  else if c == Char.ofNat 10 then [backslashC, 'n']
  else if c == Char.ofNat 13 then [backslashC, 'r']
  else if c == Char.ofNat 9 then [backslashC, 't']
  else if c == Char.ofNat 8 then [backslashC, 'b']
  else if c == Char.ofNat 12 then [backslashC, 'f']
  else if c.toNat < 32 then
    [backslashC, 'u', '0', '0', hexDigitL (c.toNat / 16), hexDigitL (c.toNat % 16)]
  else [c]

mutual
/-- Compact JSON serialization of a value (`res.json` emits
`JSON.stringify(value)` with no spacing). -/
def jsonSerialize : JVal → List Char
  | .jnull => "null".data
  | .jbool true => "true".data
  | .jbool false => "false".data
  | .jnum s => s
  | .jstr s => quoteC :: s.flatMap escJChar ++ [quoteC]
  | .jarr es => '[' :: serializeArr es ++ [']']
  | .jobj ms => lbraceC :: serializeObj ms ++ [rbraceC]

/-- Comma-separated serialization of array elements. -/
def serializeArr : JArr → List Char
  | .nil => []
  | .cons v .nil => jsonSerialize v
  | .cons v tail => jsonSerialize v ++ ',' :: serializeArr tail

/-- Comma-separated serialization of object members. -/
def serializeObj : JObj → List Char
  | .nil => []
  | .cons k v .nil => quoteC :: k.flatMap escJChar ++ quoteC :: ':' :: jsonSerialize v
  | .cons k v tail =>
    quoteC :: k.flatMap escJChar ++ quoteC :: ':' :: jsonSerialize v
      ++ ',' :: serializeObj tail
end

/-! ### The HTTP relay handler -/

/-- Inbound Express request as seen by `handleProxyRequest`: method,
parsed query pairs, headers, and the (already body-parsed) request body
kept abstract as raw text. -/
structure InReq where
  method : List Char
  query : List (List Char × List Char)
  headers : List (List Char × List Char)
  reqBody : List Char
deriving DecidableEq

/-- The `AxiosRequestConfig` literal built by the handler (src/index.ts
lines 82-113). `responseTypeArrayBuffer` models `responseType:
'arraybuffer'` and `validateStatusAll` models `validateStatus: () =>
true`; the proxy agent handle is environment state and not modelled. -/
structure AxiosConfig where
  method : List Char
  url : List Char
  responseTypeArrayBuffer : Bool
  validateStatusAll : Bool
  maxRedirects : Nat
  timeoutMs : Nat
  headers : List (List Char × List Char)
  data : List Char
  params : List (List Char × List Char)
deriving DecidableEq

/-- Upstream response as produced by the dispatcher: status, the
`location` and `content-type` headers, and the raw body. -/
structure UpResp where
  status : Nat
  location : Option (List Char)
  contentType : Option (List Char)
  respData : List Char
deriving DecidableEq

/-- Body sent to the client, tagged by the Express API used (`res.send`
with a buffer, `res.send` with a string, `res.json`). -/
inductive Sent where
  | raw (bytes : List Char)
  | text (s : List Char)
  | jsonOut (s : List Char)
deriving DecidableEq

/-- Terminal client-visible action of the handler. -/
inductive Action where
  | send (status : Nat) (body : Sent)
  | redirect (location : List Char)
deriving DecidableEq

/-- Handler outcome: whether the upstream dispatch was invoked, and the
terminal action. -/
structure Outcome where
  dispatched : Bool
  action : Action
deriving DecidableEq

/-- The query key `url`. -/
def urlKey : List Char := ['u', 'r', 'l']

/-- First-match association lookup (model of property access on the
parsed query/header objects). -/
def lookupQ : List (List Char × List Char) → List Char → Option (List Char)
  | [], _ => none
  | (k, v) :: t, key => if k = key then some v else lookupQ t key

/-- JavaScript `x || d` on an optional string (empty string is falsy). -/
def orElseStr (v : Option (List Char)) (d : List Char) : List Char :=
  match v with
  | some s => if s = [] then d else s
  | none => d

/-- The hardcoded browser-like `User-Agent` default. -/
def defaultUA : List Char :=
  "Mozilla/5.0 (Windows NT 10.0; Win64; x64) AppleWebKit/537.36 (KHTML, like Gecko) Chrome/91.0.4472.124 Safari/537.36".data

/-- The fixed default header set of the config literal, with the
`User-Agent` and `Accept-Language` fallbacks taken from the inbound
request. -/
def defaultHeaders (req : InReq) : List (List Char × List Char) :=
  [("User-Agent".data, orElseStr (lookupQ req.headers "user-agent".data) defaultUA),
   ("Accept".data, "*/*".data),
   ("Accept-Language".data,
     orElseStr (lookupQ req.headers "accept-language".data) "en-US,en;q=0.9".data),
   ("Accept-Encoding".data, "gzip, deflate, br".data),
   ("Connection".data, "keep-alive".data),
   ("Cache-Control".data, "no-cache".data),
   ("Pragma".data, "no-cache".data),
   ("Sec-Fetch-Dest".data, "document".data),
   ("Sec-Fetch-Mode".data, "navigate".data),
   ("Sec-Fetch-Site".data, "none".data),
   ("Sec-Fetch-User".data, "?1".data),
   ("Upgrade-Insecure-Requests".data, "1".data)]

/-- Header keys dropped before forwarding. -/
def droppedFwdKeys : List (List Char) := ["host".data, "origin".data, "referer".data]

/-- Inbound headers minus `host`/`origin`/`referer` (the string-typed
filter of the source; all modelled header values are strings). -/
def forwardedHeaders (req : InReq) : List (List Char × List Char) :=
  req.headers.filter (fun kv => !(droppedFwdKeys.contains (lowerL kv.1)))

/-- Model of the `config` literal of `handleProxyRequest` (src/index.ts
lines 82-113): note `maxRedirects := 5`, `timeout := 30000`, `data :=
req.body` and `params := req.query` exactly as in the source; in the
header object the forwarded inbound entries are spread after the defaults
and therefore shadow them. -/
def buildConfig (req : InReq) (normalizedUrl : List Char) : AxiosConfig where
  method := req.method
  url := normalizedUrl
  responseTypeArrayBuffer := true
  validateStatusAll := true
  maxRedirects := 5
  timeoutMs := 30000
  headers := defaultHeaders req ++ forwardedHeaders req
  data := req.reqBody
  params := req.query

/-- Redirect rewriting (src/index.ts lines 117-125): an `http`-prefixed
`Location` is wrapped verbatim, any other value is resolved with `new
URL(location, normalizedUrl)` — base the FULL normalized target URL — and
the result is wrapped as `/proxy?url=<encoded>`; `none` models the
`new URL` constructor throwing. -/
def rewriteRedirect (l : List Char) (normalizedUrl : List Char) : Option (List Char) :=
  let newTarget : Option (List Char) :=
    if startsWithL httpL l then some l
    else
      match parseURL normalizedUrl with
      | some bu => (resolveURL l bu).map serializeURL
      | none => none
  newTarget.map (fun t => proxyWrapStr ++ encodeURIComponent t)

/-- Content type strings tested by the classifier. -/
def ctHtml : List Char := "text/html".data

/-- The `application/json` content type test string. -/
def ctJson : List Char := "application/json".data

/-- The `text/` content type test string. -/
def ctTextSlash : List Char := "text/".data

/-- The `application/javascript` content type test string. -/
def ctJs : List Char := "application/javascript".data

/-- The `application/x-javascript` content type test string. -/
def ctXJs : List Char := "application/x-javascript".data

/-- The fallback content type. -/
def ctOctet : List Char := "application/octet-stream".data

/-- `response.headers['content-type'] || 'application/octet-stream'`. -/
def effectiveContentType (resp : UpResp) : List Char :=
  orElseStr resp.contentType ctOctet

/-- The content-type dispatch of the handler after the redirect check
(src/index.ts lines 152-188): HTML is rewritten, JSON is re-serialized
with a raw-bytes fallback when parsing fails, text-like types are sent as
text, everything else as raw bytes; the upstream status is set before the
dispatch and therefore preserved in every branch. -/
def classifyContent (resp : UpResp) (normalizedUrl : List Char) : Action :=
  if containsL ctHtml (effectiveContentType resp) then
    .send resp.status (.text (rewriteHtml resp.respData normalizedUrl))
  else if containsL ctJson (effectiveContentType resp) then
    match jsonParse resp.respData with
    | some v => .send resp.status (.jsonOut (jsonSerialize v))
    | none => .send resp.status (.raw resp.respData)
  else if containsL ctTextSlash (effectiveContentType resp)
      || containsL ctJs (effectiveContentType resp)
      || containsL ctXJs (effectiveContentType resp) then
    .send resp.status (.text resp.respData)
  else .send resp.status (.raw resp.respData)

/-- The redirect branch guard `response.status >= 300 && response.status <
400 && response.headers.location` (an empty `location` string is falsy). -/
def redirectGuard (resp : UpResp) : Bool :=
  decide (300 ≤ resp.status) && decide (resp.status < 400) &&
    (match resp.location with
    | some l => !l.isEmpty
    | none => false)

/-- Response processing: the redirect branch (with the outer `catch`
turning a `new URL` throw into a 500) followed by the content-type
dispatch. -/
def processResponse (resp : UpResp) (normalizedUrl : List Char) : Action :=
  if redirectGuard resp then
    match rewriteRedirect ((resp.location).getD []) normalizedUrl with
    | some p => .redirect p
    | none => .send 500 (.text "Proxy Error".data)
  else classifyContent resp normalizedUrl

/-- The 400 body for a missing `url` parameter. -/
def missingTargetMsg : List Char := "Missing target URL".data

/-- The 400 body for an invalid target URL. -/
def invalidUrlMsg : List Char := "Invalid URL format".data

/-- The 500 body for upstream failures. -/
def proxyErrorMsg : List Char := "Proxy Error".data

/-- Model of `handleProxyRequest` (src/index.ts lines 70-197).  The
`dispatch` argument is the `axios(config)` call: `.error ()` models a
connection failure or timeout (`UpstreamFailure`); the outer `catch`
distinguishes the `Invalid URL format` message (400) from every other
error (500).  The outcome records whether `dispatch` was invoked. -/
def handleProxyRequest (req : InReq)
    (dispatch : AxiosConfig → Except Unit UpResp) : Outcome :=
  match lookupQ req.query urlKey with
  | none => ⟨false, .send 400 (.text missingTargetMsg)⟩
  | some t =>
    if t = [] then ⟨false, .send 400 (.text missingTargetMsg)⟩
    else
      match normalizeUrl t none with
      | .error _ => ⟨false, .send 400 (.text invalidUrlMsg)⟩
      | .ok nu =>
        match dispatch (buildConfig req nu) with
        | .error _ => ⟨true, .send 500 (.text proxyErrorMsg)⟩
        | .ok resp => ⟨true, processResponse resp nu⟩

/-! ### WebSocket relay teardown -/

/-- WebSocket ready states (`CONNECTING`, `OPEN`, `CLOSING`, `CLOSED`);
the closing handshake is abstracted so that `close()` on an open socket
reaches the closed state. -/
inductive WsReadyState where
  | connecting
  | opened
  | closingS
  | closedS
deriving DecidableEq

/-- The guarded close `if (s.readyState === WebSocket.OPEN) s.close()`. -/
def closeIfOpen (s : WsReadyState) : WsReadyState :=
  if s = .opened then .closedS else s

/-- The paired inbound/outbound relay sockets. -/
structure SocketPair where
  inbound : WsReadyState
  outbound : WsReadyState
deriving DecidableEq

/-- Model of `handleClose` (src/index.ts lines 241-244): close each side
of the pair if and only if it is open. -/
def handleClose (p : SocketPair) : SocketPair :=
  ⟨closeIfOpen p.inbound, closeIfOpen p.outbound⟩

/-- Events that trigger teardown: a `close` event on either socket (that
socket is then already closed) or an `error` event on either socket. -/
inductive WsEvent where
  | closeInbound
  | closeOutbound
  | errorInbound
  | errorOutbound

/-- Effect of one teardown-triggering event: the handler (`handleClose`,
registered for `close` and `error` on both sockets) runs on the resulting
pair. -/
def wsEventStep (p : SocketPair) : WsEvent → SocketPair
  | .closeInbound => handleClose ⟨.closedS, p.outbound⟩
  | .closeOutbound => handleClose ⟨p.inbound, .closedS⟩
  | .errorInbound => handleClose p
  | .errorOutbound => handleClose p

/-! ### Spec-side comparison definitions -/

/-- Spec-side definition for claim C4, following the spec's words: the
inbound query with the proxy's own `url` parameter stripped. -/
def stripUrlParam (q : List (List Char × List Char)) :
    List (List Char × List Char) :=
  q.filter (fun kv => !(kv.1 == urlKey))

/-- Spec-side definition for claim C2, following the spec's words: resolve
the `Location` value against the ORIGIN of the normalized target (not the
full target URL) and wrap it. -/
def specRedirectLocation (l target : List Char) : Option (List Char) :=
  if startsWithL httpL l then some (proxyWrapStr ++ encodeURIComponent l)
  else
    match parseURL target with
    | some (.auth sch host port _ _ _) =>
      ((resolveURL l (.auth sch host port [] none none)).map serializeURL).map
        (fun t => proxyWrapStr ++ encodeURIComponent t)
    | _ => none

/-! ### Claim theorems -/

/-- Helper: a string starting with `//` has no scheme and is rejected by
`parseURL`. -/
theorem parseURL_slashslash_none (u : List Char)
    (h : startsWithL slashSlashL u = true) : parseURL u = none := by
  cases u with
  | nil => simp [slashSlashL, startsWithL] at h
  | cons c t =>
    cases t with
    | nil => simp [slashSlashL, startsWithL] at h
    | cons d t2 =>
      simp only [slashSlashL, startsWithL, Bool.and_eq_true, beq_iff_eq] at h
      obtain ⟨hc, hd, -⟩ := h
      subst hc
      subst hd
      rfl

/-- C1: the claim states that the dispatched request configuration permits
zero automatic redirect hops; the configuration built by the handler in
fact sets `maxRedirects` to 5 (the transport follows up to five redirect
hops automatically), so a Location-bearing 3xx is not returned verbatim. -/
theorem C1_upstream_config_max_redirects (req : InReq) (nu : List Char) :
    (buildConfig req nu).maxRedirects = 5 ∧ (buildConfig req nu).maxRedirects ≠ 0 :=
  ⟨rfl, by simp [buildConfig]⟩

/-- C2 (counterexample): for target `https://example.com/a/b` and
`Location: x` the handler redirects to
`/proxy?url=https%3A%2F%2Fexample.com%2Fa%2Fx` (base = the full target
URL), while resolution against the target's origin — as the claim states —
would give `/proxy?url=https%3A%2F%2Fexample.com%2Fx`. -/
theorem C2_location_origin_counterexample :
    processResponse ⟨302, some ['x'], none, []⟩ "https://example.com/a/b".data =
      .redirect "/proxy?url=https%3A%2F%2Fexample.com%2Fa%2Fx".data ∧
    specRedirectLocation ['x'] "https://example.com/a/b".data =
      some "/proxy?url=https%3A%2F%2Fexample.com%2Fx".data ∧
    ("/proxy?url=https%3A%2F%2Fexample.com%2Fa%2Fx".data : List Char) ≠
      "/proxy?url=https%3A%2F%2Fexample.com%2Fx".data := by
  refine ⟨rfl, rfl, by decide⟩

/-- C2 (amended): for every upstream response with status 300-399 and a
nonempty `Location`, the handler redirects to `/proxy?url=<encoded>` where
an `http`-prefixed `Location` is wrapped verbatim and any other value is
resolved against the FULL normalized target URL (not just its origin); the
claim's own example still yields
`/proxy?url=https%3A%2F%2Fexample.com%2Fnew`. -/
theorem C2_redirect_wrap (resp : UpResp) (nu l : List Char)
    (h3 : 300 ≤ resp.status) (h4 : resp.status < 400)
    (hl : resp.location = some l) (hne : l ≠ []) :
    (startsWithL httpL l = true →
      processResponse resp nu = .redirect (proxyWrapStr ++ encodeURIComponent l)) ∧
    (∀ bu u, startsWithL httpL l = false → parseURL nu = some bu →
      resolveURL l bu = some u →
      processResponse resp nu =
        .redirect (proxyWrapStr ++ encodeURIComponent (serializeURL u))) := by
  have hg : redirectGuard resp = true := by
    unfold redirectGuard
    rw [hl]
    cases l with
    | nil => exact absurd rfl hne
    | cons a as => simp [h3, h4]
  constructor
  · intro hh
    simp [processResponse, hg, hl, rewriteRedirect, hh]
  · intro bu u hh hp hr
    simp [processResponse, hg, hl, rewriteRedirect, hh, hp, hr]

/-- C2 (witness): the claim's example — target `https://example.com/a`,
`Location: /new` — produces a redirect to
`/proxy?url=https%3A%2F%2Fexample.com%2Fnew`. -/
theorem C2_redirect_wrap_witness :
    processResponse ⟨302, some "/new".data, none, []⟩ "https://example.com/a".data =
      .redirect "/proxy?url=https%3A%2F%2Fexample.com%2Fnew".data :=
  (C2_redirect_wrap ⟨302, some "/new".data, none, []⟩ "https://example.com/a".data
      "/new".data (by decide) (by decide) rfl (by decide)).2
    (.auth "https".data "example.com".data none ["a".data] none none)
    (.auth "https".data "example.com".data none ["new".data] none none)
    rfl rfl rfl

/-- C3 (counterexample): the body `<a href="http">` under target
`https://example.com/a` is returned unchanged — the matched `href` value
`http` fails to normalize and is left unmodified, so not every matched
attribute value is rewritten to `/proxy?url=...`. -/
theorem C3_unrewritten_counterexample :
    rewriteHtml "<a href=\"http\">".data "https://example.com/a".data =
      "<a href=\"http\">".data ∧
    containsL "/proxy".data "<a href=\"http\">".data = false :=
  ⟨rfl, rfl⟩

/-- C3 (amended): every matched `href`/`src`/`action` attribute value
that normalizes successfully is rewritten to `/proxy?url=<encoded
absolute URL>`, universally over attribute, quotes, link and target:
absolute and protocol-relative values go through
`normalizeUrl(link, target)` and are wrapped, every other value is
resolved against the target's origin and wrapped; a matched value on
which either branch fails is left unmodified (fail-open).  The two
whole-body examples of the claim instantiate the success branches. -/
theorem C3_html_rewrite :
    (rewriteHtml "<a href=\"/b\">".data "https://example.com/a".data =
      "<a href=\"/proxy?url=https%3A%2F%2Fexample.com%2Fb\">".data) ∧
    (rewriteHtml "<a href=\"https://other.com/x\">".data "https://example.com/a".data =
      "<a href=\"/proxy?url=https%3A%2F%2Fother.com%2Fx\">".data) ∧
    (∀ attr q1 link q2 nu u,
      (startsWithL httpL link || startsWithL slashSlashL link) = true →
      normalizeUrl link (some nu) = .ok u →
      rewriteLink attr q1 link q2 nu = wrapAttr attr u) ∧
    (∀ attr q1 link q2 nu sch host port segs q f u,
      (startsWithL httpL link || startsWithL slashSlashL link) = false →
      parseURL nu = some (.auth sch host port segs q f) →
      resolveURL link (.auth sch host port [] none none) = some u →
      rewriteLink attr q1 link q2 nu = wrapAttr attr (serializeURL u)) ∧
    (∀ attr q1 link q2 nu,
      (startsWithL httpL link || startsWithL slashSlashL link) = true →
      normalizeUrl link (some nu) = .error () →
      rewriteLink attr q1 link q2 nu = attr ++ '=' :: q1 :: link ++ [q2]) ∧
    (∀ attr q1 link q2 nu sch host port segs q f,
      (startsWithL httpL link || startsWithL slashSlashL link) = false →
      parseURL nu = some (.auth sch host port segs q f) →
      resolveURL link (.auth sch host port [] none none) = none →
      rewriteLink attr q1 link q2 nu = attr ++ '=' :: q1 :: link ++ [q2]) := by
  refine ⟨rfl, rfl, ?_, ?_, ?_, ?_⟩
  · intro attr q1 link q2 nu u hs hn
    simp [rewriteLink, hs, hn]
  · intro attr q1 link q2 nu sch host port segs q f u hs hp hr
    simp [rewriteLink, hs, hp, hr]
  · intro attr q1 link q2 nu hs hn
    simp [rewriteLink, hs, hn]
  · intro attr q1 link q2 nu sch host port segs q f hs hp hr
    simp [rewriteLink, hs, hp, hr]

/-- C3 (witness): the absolute-link success branch at
`https://other.com/x`, the relative-link success branch at `/b` (inside
single quotes, rewritten double-quoted), and the fail-open branch at the
link `http`, all under target `https://example.com/a`. -/
theorem C3_html_rewrite_witness :
    rewriteLink "href".data quoteC "https://other.com/x".data quoteC
      "https://example.com/a".data =
      "href=\"/proxy?url=https%3A%2F%2Fother.com%2Fx\"".data ∧
    rewriteLink "src".data apostC "/b".data apostC "https://example.com/a".data =
      "src=\"/proxy?url=https%3A%2F%2Fexample.com%2Fb\"".data ∧
    rewriteLink "href".data quoteC "http".data quoteC "https://example.com/a".data =
      "href=\"http\"".data := by
  refine ⟨?_, ?_, ?_⟩
  · exact C3_html_rewrite.2.2.1 "href".data quoteC "https://other.com/x".data quoteC
      "https://example.com/a".data "https://other.com/x".data rfl rfl
  · exact C3_html_rewrite.2.2.2.1 "src".data apostC "/b".data apostC
      "https://example.com/a".data "https".data "example.com".data none
      ["a".data] none none
      (.auth "https".data "example.com".data none ["b".data] none none) rfl rfl rfl
  · exact C3_html_rewrite.2.2.2.2.1 "href".data quoteC "http".data quoteC
      "https://example.com/a".data rfl rfl

/-- C4 (counterexample): for an inbound query carrying `url` and `foo`,
the config's `params` equal the full inbound query — the `url` parameter
is NOT stripped — and differ from the query with `url` stripped that the
claim describes. -/
theorem C4_params_counterexample :
    (buildConfig
        ⟨"GET".data, [(urlKey, "https://example.com/a".data), ("foo".data, "1".data)], [], []⟩
        "https://example.com/a".data).params =
      [(urlKey, "https://example.com/a".data), ("foo".data, "1".data)] ∧
    stripUrlParam [(urlKey, "https://example.com/a".data), ("foo".data, "1".data)] =
      [("foo".data, "1".data)] ∧
    (buildConfig
        ⟨"GET".data, [(urlKey, "https://example.com/a".data), ("foo".data, "1".data)], [], []⟩
        "https://example.com/a".data).params ≠
      stripUrlParam [(urlKey, "https://example.com/a".data), ("foo".data, "1".data)] := by
  refine ⟨rfl, rfl, by decide⟩

/-- C4 (amended): the query parameters placed on the dispatched config are
exactly the inbound query parameters INCLUDING the proxy's own `url`
parameter — nothing is stripped, everything is relayed unchanged. -/
theorem C4_params_forwarded (req : InReq) (nu : List Char) :
    (buildConfig req nu).params = req.query := rfl

/-- C5: an inbound request on `/proxy` with no `url` query parameter gets
status 400 and the dispatcher is observably not invoked. -/
theorem C5_missing_url_no_dispatch (req : InReq)
    (dispatch : AxiosConfig → Except Unit UpResp)
    (h : lookupQ req.query urlKey = none) :
    handleProxyRequest req dispatch = ⟨false, .send 400 (.text missingTargetMsg)⟩ := by
  unfold handleProxyRequest
  rw [h]

/-- C5 (witness): a concrete request with an empty query. -/
theorem C5_missing_url_no_dispatch_witness :
    handleProxyRequest ⟨"GET".data, [], [], []⟩ (fun _ => .error ()) =
      ⟨false, .send 400 (.text missingTargetMsg)⟩ :=
  C5_missing_url_no_dispatch _ _ rfl

/-- C6: a target URL that fails to normalize yields status 400 (never
500) with no dispatch, and a successful normalization followed by a failed
dispatch (connection failure or timeout) yields status 500; these are the
only terminal statuses of the two error classes. -/
theorem C6_error_statuses (req : InReq)
    (dispatch : AxiosConfig → Except Unit UpResp) (t : List Char)
    (hq : lookupQ req.query urlKey = some t) (hne : t ≠ []) :
    (normalizeUrl t none = .error () →
      handleProxyRequest req dispatch = ⟨false, .send 400 (.text invalidUrlMsg)⟩) ∧
    (∀ nu, normalizeUrl t none = .ok nu → dispatch (buildConfig req nu) = .error () →
      handleProxyRequest req dispatch = ⟨true, .send 500 (.text proxyErrorMsg)⟩) := by
  constructor
  · intro hn
    simp only [handleProxyRequest, hq]
    rw [if_neg hne]
    simp only [hn]
  · intro nu hn hd
    simp only [handleProxyRequest, hq]
    rw [if_neg hne]
    simp only [hn, hd]

/-- C6 (witness): the unparseable target `not a url` gets 400 without
dispatch; a valid target with a failing dispatcher gets 500. -/
theorem C6_error_statuses_witness :
    handleProxyRequest ⟨"GET".data, [(urlKey, "not a url".data)], [], []⟩
        (fun _ => .error ()) = ⟨false, .send 400 (.text invalidUrlMsg)⟩ ∧
    handleProxyRequest ⟨"GET".data, [(urlKey, "https://example.com/a".data)], [], []⟩
        (fun _ => .error ()) = ⟨true, .send 500 (.text proxyErrorMsg)⟩ := by
  constructor
  · exact (C6_error_statuses ⟨"GET".data, [(urlKey, "not a url".data)], [], []⟩
      (fun _ => .error ()) "not a url".data rfl (by decide)).1 rfl
  · exact (C6_error_statuses ⟨"GET".data, [(urlKey, "https://example.com/a".data)], [], []⟩
      (fun _ => .error ()) "https://example.com/a".data rfl (by decide)).2
      "https://example.com/a".data rfl rfl

/-- C7: a response classified as JSON (content type contains
`application/json` and not `text/html`, which is checked first) fails
open: an unparseable body is sent back as the original raw bytes with the
upstream status preserved, and a parseable body is re-serialized. -/
theorem C7_json_fail_open (resp : UpResp) (nu : List Char)
    (hj : containsL ctJson (effectiveContentType resp) = true)
    (hh : containsL ctHtml (effectiveContentType resp) = false) :
    (jsonParse resp.respData = none →
      classifyContent resp nu = .send resp.status (.raw resp.respData)) ∧
    (∀ v, jsonParse resp.respData = some v →
      classifyContent resp nu = .send resp.status (.jsonOut (jsonSerialize v))) := by
  constructor
  · intro hp
    simp [classifyContent, hh, hj, hp]
  · intro v hp
    simp [classifyContent, hh, hj, hp]

/-- C7 (witness): `content-type: application/json` with the invalid body
`[1` returns the raw bytes with status 200 preserved; the valid body
`[1,2]` is re-serialized. -/
theorem C7_json_fail_open_witness :
    classifyContent ⟨200, none, some "application/json".data, "[1".data⟩ [] =
      .send 200 (.raw "[1".data) ∧
    classifyContent ⟨200, none, some "application/json".data, "[1,2]".data⟩ [] =
      .send 200 (.jsonOut "[1,2]".data) := by
  constructor
  · exact (C7_json_fail_open ⟨200, none, some "application/json".data, "[1".data⟩ []
      rfl rfl).1 rfl
  · exact (C7_json_fail_open ⟨200, none, some "application/json".data, "[1,2]".data⟩ []
      rfl rfl).2 (.jarr (.cons (.jnum ['1']) (.cons (.jnum ['2']) .nil))) rfl

/-- C8: for an active relay pair (both sockets open), every close or error
event on either socket drives both sockets to the closed state; the
teardown handler is idempotent and closing an already-closed socket is a
no-op. -/
theorem C8_ws_linked_teardown (p : SocketPair)
    (h1 : p.inbound = .opened) (h2 : p.outbound = .opened) :
    (∀ e, wsEventStep p e = ⟨.closedS, .closedS⟩) ∧
    (∀ q, handleClose (handleClose q) = handleClose q) ∧
    closeIfOpen .closedS = .closedS := by
  refine ⟨?_, ?_, rfl⟩
  · intro e
    cases e <;> simp [wsEventStep, handleClose, closeIfOpen, h1, h2]
  · intro q
    obtain ⟨a, b⟩ := q
    cases a <;> cases b <;> rfl

/-- C8 (witness): closing the inbound socket of a fully open pair closes
both sockets. -/
theorem C8_ws_linked_teardown_witness :
    wsEventStep ⟨.opened, .opened⟩ .closeInbound = ⟨.closedS, .closedS⟩ :=
  (C8_ws_linked_teardown ⟨.opened, .opened⟩ rfl rfl).1 .closeInbound

/-- C9: `normalizeUrl` with no base is the identity on every string that
parses as a valid absolute URL. -/
theorem C9_normalize_identity (u : List Char) (h : (parseURL u).isSome = true) :
    normalizeUrl u none = .ok u := by
  have hss : startsWithL slashSlashL u = false := by
    cases hx : startsWithL slashSlashL u with
    | false => rfl
    | true => rw [parseURL_slashslash_none u hx] at h; simp at h
  obtain ⟨v, hv⟩ := Option.isSome_iff_exists.mp h
  simp only [normalizeUrl, hss, Bool.false_eq_true, if_false]
  unfold validateURLString
  rw [hv]

/-- C9 (witness): the concrete absolute URL `https://example.com/a`. -/
theorem C9_normalize_identity_witness :
    (parseURL "https://example.com/a".data).isSome = true ∧
    normalizeUrl "https://example.com/a".data none = .ok "https://example.com/a".data :=
  ⟨rfl, C9_normalize_identity "https://example.com/a".data rfl⟩

/-- C10: every `//`-prefixed input makes `normalizeUrl` return `https:`
concatenated with the input, for any base, with no parsing or validation —
it never raises `Invalid URL format` on such inputs. -/
theorem C10_protocol_relative (s : List Char) (b : Option (List Char))
    (h : startsWithL slashSlashL s = true) :
    normalizeUrl s b = .ok (httpsColonL ++ s) := by
  simp [normalizeUrl, h]

/-- C10 (witness): the input `//` succeeds even though the produced string
`https://` is not itself a parseable URL. -/
theorem C10_protocol_relative_witness :
    normalizeUrl "//".data none = .ok "https://".data ∧
    parseURL ("https:".data ++ "//".data) = none :=
  ⟨C10_protocol_relative "//".data none rfl, rfl⟩

end GamatixProxy
